import Mathlib

/-!
# Verification of the GCCMPD crawler pipeline against its specification

Shallow embedding of the crawl/merge scripts of the GCCMPD climate-policy
dataset repository, together with theorems settling the specification
claims about the year-acceptance filter, the merge/dedup reconciler, the
fetcher retry schedule, the pagination estimator, the run-orchestrator
termination rule, the incremental CSV writer and the field extractor.

Conventions of the embedding:
* Python strings are Lean `String`s; `str.isdigit` / `int` / `lower` /
  `strip` are modelled on their ASCII behaviour (the repository's year
  and fingerprint strings are ASCII), so `int` never fails on a string
  that passes `isdigit`.
* pandas dataframes are `List`s of row structures; `drop_duplicates`
  with keep-first semantics is a structural keep-first deduplication.
* The network is an oracle `Nat → AttemptOutcome` giving the outcome of
  each HTTP attempt; `random.uniform(1,3)` politeness jitter is an
  oracle `Nat → ℚ`.  Real-time sleeps are recorded as trace events.
* The file system used by the incremental writer is
  `Option (List (List String))`: `none` is "file absent", otherwise the
  list of CSV rows (each a list of cells).
-/

namespace GCCMPD

/-! ## Year filter (APEP_crawl.py lines 260-282, MEE_PRC_crawl.py lines 130-138)

`MIN_YEAR` is the module constant of both crawlers. -/

def MIN_YEAR : Nat := 2021

/-- Model of Python `str.isdigit()` on ASCII strings: non-empty and all
characters are decimal digits.  (Python also accepts some non-ASCII digit
characters; those never occur in the crawled year strings.) -/
def pyIsdigit (s : String) : Bool :=
  !s.isEmpty && s.toList.all Char.isDigit

/-- Model of Python `int()` on a string of ASCII decimal digits. -/
def pyInt (s : String) : Nat :=
  s.toList.foldl (fun n c => n * 10 + (c.toNat - 48)) 0

/-- APEP_crawl.py lines 261-282: the year-acceptance decision of the APEP
crawler.  The source computes `year_int = int(Year) if Year.isdigit() else 0`
and writes the record iff `year_int >= MIN_YEAR or Year == ''`.
The `except ValueError` branch of the source ("If year is not a valid
integer, save it anyway") is unreachable for ASCII year strings, because
`int()` succeeds on every ASCII string passing `str.isdigit()`; it is
therefore not part of the model. -/
def apepYearAccept (Year : String) : Bool :=
  let year_int : Nat := if pyIsdigit Year then pyInt Year else 0
  decide (year_int ≥ MIN_YEAR) || (Year == "")

/-- MEE_PRC_crawl.py lines 131-138: the year-acceptance decision of the
MEE_PRC crawler.  The source skips the record iff
`year_int < MIN_YEAR and year != ''`; acceptance is the negation. -/
def meeYearAccept (year : String) : Bool :=
  let year_int : Nat := if pyIsdigit year then pyInt year else 0
  !(decide (year_int < MIN_YEAR) && !(year == ""))

end GCCMPD

namespace GCCMPD

/-- C1: the claim says a non-empty, non-numeric Year string (a free-text
date) is accepted with reason YearIndeterminate.  The code disagrees: in
both crawlers `year_int = int(Year) if Year.isdigit() else 0` maps every
non-numeric Year to `0 < MIN_YEAR`, and the string is non-empty, so the
record is skipped, not written.  This theorem evaluates the embedded
filters at the failing input "circa 2022"; the in-source comments
("If year is not a valid integer, save it anyway", "Include policies
with non-numeric years") guard unreachable branches and show the code
contradicts its own documentation. -/
theorem yearFilter_nonNumeric_rejected :
    apepYearAccept "circa 2022" = false ∧ meeYearAccept "circa 2022" = false := by
  constructor <;> rfl

/-- C2: for a well-formed non-negative integer Year string the APEP filter
accepts iff `int(Year) >= MIN_YEAR`, and the empty Year string is always
accepted. -/
theorem yearFilter_numeric_and_empty :
    (∀ s : String, pyIsdigit s = true →
      (apepYearAccept s = true ↔ MIN_YEAR ≤ pyInt s)) ∧
    apepYearAccept "" = true := by
  refine ⟨fun s hs => ?_, rfl⟩
  have hne : (s == "") = false := by
    rcases h : (s == "") with _ | _
    · rfl
    · rw [beq_iff_eq] at h
      subst h
      exact absurd hs (by decide)
  simp [apepYearAccept, hs, hne]

/-- Witness for C2 at the concrete inputs "2022" and "1999". -/
theorem yearFilter_numeric_and_empty_witness :
    apepYearAccept "2022" = true ∧ apepYearAccept "1999" = false := by
  constructor
  · exact (yearFilter_numeric_and_empty.1 "2022" (by decide)).2 (by decide)
  · have h := (yearFilter_numeric_and_empty.1 "1999" (by decide))
    rcases hv : apepYearAccept "1999" with _ | _
    · rfl
    · exact absurd (h.1 hv) (by decide)

end GCCMPD

namespace GCCMPD

/-! ## Merge/Dedup reconciler (merge_crawler_results.py lines 109-117 and
233-273, simple_merge.py lines 76-89)

A dataframe row carries the columns relevant to fingerprinting plus a
distinguishing payload column (`Year`). -/

structure Row where
  URL : String
  Policy : String
  Year : String
  deriving DecidableEq, Repr

/-- Model of Python `str.lower()` on ASCII strings. -/
def pyLower (s : String) : String := String.mk (s.toList.map Char.toLower)

/-- The whitespace characters stripped by Python `str.strip()`. -/
def pyWhitespace (c : Char) : Bool :=
  c == ' ' || c == '\t' || c == '\n' || c == '\r' ||
    c == Char.ofNat 11 || c == Char.ofNat 12

/-- Model of Python `str.strip()`: drop leading and trailing whitespace. -/
def pyStrip (s : String) : String :=
  String.mk (((s.toList.dropWhile pyWhitespace).reverse.dropWhile pyWhitespace).reverse)

/-- merge_crawler_results.py lines 109-117: the duplicate-detection
fingerprint `f"{url}|{title}".lower().strip()`.  The script md5-hashes this
identifier; the hash is modelled as the identifier itself (an injective
encoding), since only equality of fingerprints is ever used. -/
def create_file_hash (r : Row) : String :=
  pyStrip (pyLower (r.URL ++ "|" ++ r.Policy))

/-- pandas `drop_duplicates(subset=[key], keep='first')`: keep the first
occurrence of every key, in order; `seen` is the set of keys already kept. -/
def dedupByAux (key : Row → String) (seen : List String) : List Row → List Row
  | [] => []
  | r :: rs =>
    if key r ∈ seen then dedupByAux key seen rs
    else r :: dedupByAux key (key r :: seen) rs

def dedupBy (key : Row → String) (l : List Row) : List Row :=
  dedupByAux key [] l

/-- The keys added to `seen` after scanning a list (kept elements' keys). -/
def collectSeen (key : Row → String) (seen : List String) : List Row → List String
  | [] => seen
  | r :: rs =>
    if key r ∈ seen then collectSeen key seen rs
    else collectSeen key (key r :: seen) rs

/-- merge_crawler_results.py lines 233-273 (`merge_dataframes`): concatenate
the two tables, sort by the origin tag ascending — which puts the
`'new_crawl'` rows before the `'old_crawl'` rows, since
`'new_crawl' < 'old_crawl'` lexicographically — and drop later duplicates
by fingerprint.  The post-sort order is therefore the new table followed by
the old table. -/
def merge_dataframes (old_df new_df : List Row) : List Row :=
  dedupBy create_file_hash (new_df ++ old_df)

/-- simple_merge.py lines 76-89: deduplication on the single `URL` column
(the first match in `['URL', 'url', 'Policy', 'policy', 'title']`).  The
script sorts the origin tag `'_source'` in **descending** order, and
`'old' > 'new'` lexicographically, so the old rows come first and
`drop_duplicates(keep='first')` retains the old row of each duplicated URL. -/
def simple_merge_dedup (old_df new_df : List Row) : List Row :=
  dedupBy (fun r => r.URL) (old_df ++ new_df)

/-- The fingerprint multiset of a table (the `_hash` column). -/
def hashes (df : List Row) : List String :=
  df.map create_file_hash

/-! ### Deduplication lemmas -/

theorem mem_of_mem_dedupByAux {key : Row → String} {seen : List String}
    {l : List Row} {x : Row} (hx : x ∈ dedupByAux key seen l) : x ∈ l := by
  induction l generalizing seen with
  | nil => simp [dedupByAux] at hx
  | cons r rs ih =>
    by_cases h : key r ∈ seen
    · simp only [dedupByAux, if_pos h] at hx
      exact List.mem_cons_of_mem _ (ih hx)
    · simp only [dedupByAux, if_neg h, List.mem_cons] at hx
      rcases hx with hx | hx
      · exact hx ▸ List.mem_cons_self _ _
      · exact List.mem_cons_of_mem _ (ih hx)

theorem key_not_in_seen_of_mem_dedupByAux {key : Row → String}
    {seen : List String} {l : List Row} {x : Row}
    (hx : x ∈ dedupByAux key seen l) : key x ∉ seen := by
  induction l generalizing seen with
  | nil => simp [dedupByAux] at hx
  | cons r rs ih =>
    by_cases h : key r ∈ seen
    · simp only [dedupByAux, if_pos h] at hx
      exact ih hx
    · simp only [dedupByAux, if_neg h, List.mem_cons] at hx
      rcases hx with hx | hx
      · exact hx ▸ h
      · intro hmem
        exact ih hx (List.mem_cons_of_mem _ hmem)

theorem mem_map_dedupByAux {key : Row → String} {seen : List String}
    {l : List Row} {h : String} :
    h ∈ (dedupByAux key seen l).map key ↔ h ∉ seen ∧ h ∈ l.map key := by
  induction l generalizing seen with
  | nil => simp [dedupByAux]
  | cons r rs ih =>
    by_cases hk : key r ∈ seen
    · simp only [dedupByAux, if_pos hk, ih, List.map_cons, List.mem_cons]
      constructor
      · rintro ⟨hns, hmem⟩
        exact ⟨hns, Or.inr hmem⟩
      · rintro ⟨hns, hmem | hmem⟩
        · exact absurd (hmem ▸ hk) hns
        · exact ⟨hns, hmem⟩
    · simp only [dedupByAux, if_neg hk, List.map_cons, List.mem_cons, ih]
      constructor
      · rintro (heq | ⟨hns, hmem⟩)
        · exact ⟨heq ▸ hk, Or.inl heq⟩
        · exact ⟨fun hmem2 => hns (Or.inr hmem2), Or.inr hmem⟩
      · rintro ⟨hns, heq | hmem⟩
        · exact Or.inl heq
        · by_cases heq : h = key r
          · exact Or.inl heq
          · exact Or.inr ⟨by simp [List.mem_cons, heq, hns], hmem⟩

theorem dedupByAux_append (key : Row → String) (seen : List String)
    (l₁ l₂ : List Row) :
    dedupByAux key seen (l₁ ++ l₂) =
      dedupByAux key seen l₁ ++ dedupByAux key (collectSeen key seen l₁) l₂ := by
  induction l₁ generalizing seen with
  | nil => simp [dedupByAux, collectSeen]
  | cons r rs ih =>
    by_cases h : key r ∈ seen
    · simp [dedupByAux, collectSeen, if_pos h, ih]
    · simp [dedupByAux, collectSeen, if_neg h, ih]

theorem dedupByAux_nil_of_all_seen {key : Row → String} {seen : List String}
    {l : List Row} (hall : ∀ x ∈ l, key x ∈ seen) :
    dedupByAux key seen l = [] := by
  induction l with
  | nil => rfl
  | cons r rs ih =>
    have hr : key r ∈ seen := hall r (List.mem_cons_self _ _)
    simp only [dedupByAux, if_pos hr]
    exact ih fun x hx => hall x (List.mem_cons_of_mem _ hx)

theorem mem_collectSeen {key : Row → String} {seen : List String}
    {l : List Row} {h : String} :
    h ∈ collectSeen key seen l ↔ h ∈ seen ∨ h ∈ l.map key := by
  induction l generalizing seen with
  | nil => simp [collectSeen]
  | cons r rs ih =>
    by_cases hk : key r ∈ seen
    · simp only [collectSeen, if_pos hk, ih, List.map_cons, List.mem_cons]
      constructor
      · rintro (hs | hm)
        · exact Or.inl hs
        · exact Or.inr (Or.inr hm)
      · rintro (hs | heq | hm)
        · exact Or.inl hs
        · exact Or.inl (heq ▸ hk)
        · exact Or.inr hm
    · simp only [collectSeen, if_neg hk, ih, List.map_cons, List.mem_cons]
      tauto

theorem dedupByAux_length_of_nodup {key : Row → String} {seen : List String}
    {l : List Row} (hnd : (l.map key).Nodup)
    (hdis : ∀ x ∈ l, key x ∉ seen) :
    (dedupByAux key seen l).length = l.length := by
  induction l generalizing seen with
  | nil => rfl
  | cons r rs ih =>
    have hr : key r ∉ seen := hdis r (List.mem_cons_self _ _)
    simp only [dedupByAux, if_neg hr, List.length_cons]
    simp only [List.map_cons, List.nodup_cons] at hnd
    have : (dedupByAux key (key r :: seen) rs).length = rs.length := by
      refine ih hnd.2 fun x hx => ?_
      simp only [List.mem_cons]
      rintro (heq | hmem)
      · exact hnd.1 (heq ▸ List.mem_map_of_mem key hx)
      · exact hdis x (List.mem_cons_of_mem _ hx) hmem
    omega

end GCCMPD

namespace GCCMPD

/-- General support theorem for `merge_dataframes`: every fingerprint of the
new table survives the merge, and every merged row whose fingerprint occurs
in the new table is a row of the new table (new-run data wins on conflict;
old rows survive only for fingerprints absent from the new run). -/
theorem merge_dataframes_new_wins (old_df new_df : List Row) :
    (∀ h ∈ hashes new_df, h ∈ hashes (merge_dataframes old_df new_df)) ∧
    (∀ x ∈ merge_dataframes old_df new_df,
      create_file_hash x ∈ hashes new_df → x ∈ new_df) := by
  constructor
  · intro h hmem
    have : h ∈ (new_df ++ old_df).map create_file_hash := by
      rw [List.map_append, List.mem_append]
      exact Or.inl hmem
    exact (@mem_map_dedupByAux create_file_hash [] (new_df ++ old_df) h).2 ⟨by simp, this⟩
  · intro x hx hhash
    rw [merge_dataframes, dedupBy, dedupByAux_append, List.mem_append] at hx
    rcases hx with hx | hx
    · exact mem_of_mem_dedupByAux hx
    · exfalso
      refine key_not_in_seen_of_mem_dedupByAux hx ?_
      exact mem_collectSeen.2 (Or.inr hhash)

/-- C3: the claim says the merged output always keeps the new-table row of a
fingerprint present in both tables.  `merge_dataframes` does so, but
`simple_merge.py` sorts its origin tag `'_source'` in descending order, which
puts `'old'` rows before `'new'` rows, so `drop_duplicates(keep='first')`
retains the **old** row — contradicting the claim and the script's own
comment "Keep newest data (new source first)".  Evaluation at the failing
input (old row `{URL: "/x", Policy: "Solar Act"}`, new row adds
`Year: "2022"`): `simple_merge` keeps the old row, `merge_dataframes` keeps
the new row, and the two rows differ. -/
theorem simple_merge_keeps_old_row :
    simple_merge_dedup [⟨"/x", "Solar Act", ""⟩] [⟨"/x", "Solar Act", "2022"⟩]
        = [⟨"/x", "Solar Act", ""⟩] ∧
    merge_dataframes [⟨"/x", "Solar Act", ""⟩] [⟨"/x", "Solar Act", "2022"⟩]
        = [⟨"/x", "Solar Act", "2022"⟩] ∧
    (⟨"/x", "Solar Act", ""⟩ : Row) ≠ ⟨"/x", "Solar Act", "2022"⟩ := by
  refine ⟨by decide, by decide, by decide⟩

/-- C4 counterexample: merging a table with itself does **not** always yield
the original row count.  A table whose two distinct rows share one
fingerprint (same URL and title, different Year) self-merges to a single
row. -/
theorem merge_self_length_counterexample :
    ¬ ((merge_dataframes
          [⟨"/x", "Solar Act", "2000"⟩, ⟨"/x", "Solar Act", "2022"⟩]
          [⟨"/x", "Solar Act", "2000"⟩, ⟨"/x", "Solar Act", "2022"⟩]).length
        = [(⟨"/x", "Solar Act", "2000"⟩ : Row), ⟨"/x", "Solar Act", "2022"⟩].length) := by
  decide

/-- C4 amended: `merge(merge(A,B), B)` equals `merge(A,B)` on fingerprint
sets, and merging a table with itself yields the original row count
provided the table's fingerprints are pairwise distinct. -/
theorem merge_idempotent_amended :
    (∀ A B : List Row, ∀ h : String,
      h ∈ hashes (merge_dataframes (merge_dataframes A B) B) ↔
        h ∈ hashes (merge_dataframes A B)) ∧
    (∀ A : List Row, (hashes A).Nodup →
      (merge_dataframes A A).length = A.length) := by
  constructor
  · intro A B h
    have hset : ∀ X Y : List Row,
        h ∈ hashes (merge_dataframes X Y) ↔
          h ∈ hashes Y ∨ h ∈ hashes X := by
      intro X Y
      show h ∈ (dedupByAux create_file_hash [] (Y ++ X)).map create_file_hash ↔ _
      rw [mem_map_dedupByAux, List.map_append]
      simp [hashes]
    simp only [hset]
    tauto
  · intro A hnd
    have hsplit : merge_dataframes A A =
        dedupByAux create_file_hash [] A ++
          dedupByAux create_file_hash (collectSeen create_file_hash [] A) A :=
      dedupByAux_append create_file_hash [] A A
    have hnil : dedupByAux create_file_hash (collectSeen create_file_hash [] A) A = [] := by
      refine dedupByAux_nil_of_all_seen fun x hx => ?_
      exact mem_collectSeen.2 (Or.inr (List.mem_map_of_mem create_file_hash hx))
    have hlen : (dedupByAux create_file_hash ([] : List String) A).length = A.length :=
      dedupByAux_length_of_nodup hnd (by simp)
    rw [hsplit, hnil, List.append_nil, hlen]

/-- Witness for C4 at a concrete table with pairwise-distinct
fingerprints. -/
theorem merge_idempotent_amended_witness :
    (merge_dataframes [⟨"/a", "P", ""⟩, ⟨"/b", "Q", ""⟩]
        [⟨"/a", "P", ""⟩, ⟨"/b", "Q", ""⟩]).length = 2 := by
  have h := merge_idempotent_amended.2
    [⟨"/a", "P", ""⟩, ⟨"/b", "Q", ""⟩] (by decide)
  simpa using h

end GCCMPD

namespace GCCMPD

/-! ## Fetcher (APEP_crawl.py lines 34-69 `get_page`; GOV_PRC_crawl.py
lines 28-63 is character-identical)

Each HTTP attempt is an oracle value: either a transport-level failure
(read timeout or other request exception) or a received response with a
status code and body.  Real-time sleeps are recorded as trace events:
the linear backoff waits and the 1-3 s politeness delay drawn from the
jitter oracle. -/

inductive AttemptOutcome where
  | timeout
  | reqError
  | response (status : Nat) (body : String)
  deriving DecidableEq, Repr

inductive FetchEvent where
  | backoffWait (secs : Nat)
  | politeness (secs : ℚ)
  deriving DecidableEq, Repr

/-- Whether an attempt outcome enters one of the two except-branches. -/
def isFailureOutcome : AttemptOutcome → Bool
  | .timeout => true
  | .reqError => true
  | .response _ _ => false

/-- The backoff wait of APEP_crawl.py lines 55 and 65: `(attempt+1)*5`
seconds after a read timeout, `(attempt+1)*2` seconds after any other
request exception. -/
def waitSecs (o : AttemptOutcome) (attempt : Nat) : Nat :=
  match o with
  | .timeout => (attempt + 1) * 5
  | .reqError => (attempt + 1) * 2
  | .response _ _ => 0

/-- The `for attempt in range(max_retries)` loop of `get_page`, with
`fuel` the number of remaining attempts.  On a received response the
status code is printed but never inspected; the body is returned after
the politeness sleep.  On a failure with `attempt < max_retries - 1`
(i.e. remaining fuel after this attempt is positive) the loop waits the
backoff and retries; on the last attempt it returns None. -/
def get_page_loop (outcomes : Nat → AttemptOutcome) (jitter : Nat → ℚ) :
    Nat → Nat → Option String × List FetchEvent
  | _, 0 => (none, [])
  | attempt, fuel + 1 =>
    match outcomes attempt with
    | .response _ body => (some body, [.politeness (jitter attempt)])
    | .timeout =>
      if fuel = 0 then (none, [])
      else
        let rest := get_page_loop outcomes jitter (attempt + 1) fuel
        (rest.1, .backoffWait ((attempt + 1) * 5) :: rest.2)
    | .reqError =>
      if fuel = 0 then (none, [])
      else
        let rest := get_page_loop outcomes jitter (attempt + 1) fuel
        (rest.1, .backoffWait ((attempt + 1) * 2) :: rest.2)

/-- APEP_crawl.py lines 34-69: `get_page(url, max_retries)`, as a function
of the per-attempt outcome oracle and the politeness-jitter oracle. -/
def get_page (outcomes : Nat → AttemptOutcome) (jitter : Nat → ℚ)
    (max_retries : Nat) : Option String × List FetchEvent :=
  get_page_loop outcomes jitter 0 max_retries

theorem get_page_loop_response_step (outcomes : Nat → AttemptOutcome)
    (jitter : Nat → ℚ) (a fuel st : Nat) (b : String)
    (ho : outcomes a = .response st b) :
    get_page_loop outcomes jitter a (fuel + 1) =
      (some b, [.politeness (jitter a)]) := by
  conv_lhs => rw [get_page_loop]
  rw [ho]

theorem get_page_loop_timeout_step (outcomes : Nat → AttemptOutcome)
    (jitter : Nat → ℚ) (a fuel : Nat)
    (ho : outcomes a = .timeout) (hf : fuel ≠ 0) :
    get_page_loop outcomes jitter a (fuel + 1) =
      ((get_page_loop outcomes jitter (a + 1) fuel).1,
        .backoffWait ((a + 1) * 5) :: (get_page_loop outcomes jitter (a + 1) fuel).2) := by
  conv_lhs => rw [get_page_loop]
  rw [ho]
  simp [hf]

theorem get_page_loop_reqError_step (outcomes : Nat → AttemptOutcome)
    (jitter : Nat → ℚ) (a fuel : Nat)
    (ho : outcomes a = .reqError) (hf : fuel ≠ 0) :
    get_page_loop outcomes jitter a (fuel + 1) =
      ((get_page_loop outcomes jitter (a + 1) fuel).1,
        .backoffWait ((a + 1) * 2) :: (get_page_loop outcomes jitter (a + 1) fuel).2) := by
  conv_lhs => rw [get_page_loop]
  rw [ho]
  simp [hf]

theorem get_page_loop_lastfail_step (outcomes : Nat → AttemptOutcome)
    (jitter : Nat → ℚ) (a : Nat)
    (ho : isFailureOutcome (outcomes a) = true) :
    get_page_loop outcomes jitter a 1 = (none, []) := by
  conv_lhs => rw [get_page_loop]
  cases h : outcomes a with
  | response st b => rw [h] at ho; simp [isFailureOutcome] at ho
  | timeout => rfl
  | reqError => rfl

theorem get_page_loop_success (outcomes : Nat → AttemptOutcome)
    (jitter : Nat → ℚ) (st : Nat) (b : String) :
    ∀ (k a fuel : Nat), k < fuel →
      (∀ i, i < k → isFailureOutcome (outcomes (a + i)) = true) →
      outcomes (a + k) = .response st b →
      get_page_loop outcomes jitter a fuel =
        (some b, ((List.range k).map fun i =>
            FetchEvent.backoffWait (waitSecs (outcomes (a + i)) (a + i))) ++
          [.politeness (jitter (a + k))]) := by
  intro k
  induction k with
  | zero =>
    intro a fuel hk hfail hsucc
    cases fuel with
    | zero => omega
    | succ f =>
      simp only [Nat.add_zero] at hsucc
      rw [get_page_loop_response_step outcomes jitter a f st b hsucc]
      simp
  | succ k ih =>
    intro a fuel hk hfail hsucc
    cases fuel with
    | zero => omega
    | succ f =>
      have hf : f ≠ 0 := by omega
      have hsh : ∀ i : Nat, a + 1 + i = a + (i + 1) := fun i => by omega
      have hrest := ih (a + 1) f (by omega)
        (fun i hi => by rw [hsh i]; exact hfail (i + 1) (by omega))
        (by rw [hsh k]; exact hsucc)
      have hfa : isFailureOutcome (outcomes a) = true := by
        have := hfail 0 (by omega)
        simpa using this
      have hrange : (List.range (k + 1)).map
          (fun i => FetchEvent.backoffWait (waitSecs (outcomes (a + i)) (a + i))) =
          FetchEvent.backoffWait (waitSecs (outcomes a) a) ::
            (List.range k).map
              (fun i => FetchEvent.backoffWait
                (waitSecs (outcomes (a + 1 + i)) (a + 1 + i))) := by
        rw [List.range_succ_eq_map, List.map_cons, List.map_map]
        simp only [Function.comp_def, Nat.succ_eq_add_one, hsh, Nat.add_zero]
      cases ho : outcomes a with
      | response st2 b2 => rw [ho] at hfa; simp [isFailureOutcome] at hfa
      | timeout =>
        rw [get_page_loop_timeout_step outcomes jitter a f ho hf, hrest, hrange]
        simp [waitSecs, ho, hsh]
      | reqError =>
        rw [get_page_loop_reqError_step outcomes jitter a f ho hf, hrest, hrange]
        simp [waitSecs, ho, hsh]

theorem get_page_loop_exhausted (outcomes : Nat → AttemptOutcome)
    (jitter : Nat → ℚ) :
    ∀ (fuel a : Nat),
      (∀ i, i < fuel → isFailureOutcome (outcomes (a + i)) = true) →
      get_page_loop outcomes jitter a fuel =
        (none, (List.range (fuel - 1)).map fun i =>
          FetchEvent.backoffWait (waitSecs (outcomes (a + i)) (a + i))) := by
  intro fuel
  induction fuel with
  | zero => intro a _; rfl
  | succ f ih =>
    intro a hfail
    have hfa : isFailureOutcome (outcomes a) = true := by
      have := hfail 0 (by omega)
      simpa using this
    have hsh : ∀ i : Nat, a + 1 + i = a + (i + 1) := fun i => by omega
    cases f with
    | zero => exact get_page_loop_lastfail_step outcomes jitter a hfa
    | succ f2 =>
      have hrest := ih (a + 1)
        (fun i hi => by rw [hsh i]; exact hfail (i + 1) (by omega))
      have hrange : (List.range (f2 + 1)).map
          (fun i => FetchEvent.backoffWait (waitSecs (outcomes (a + i)) (a + i))) =
          FetchEvent.backoffWait (waitSecs (outcomes a) a) ::
            (List.range f2).map
              (fun i => FetchEvent.backoffWait
                (waitSecs (outcomes (a + 1 + i)) (a + 1 + i))) := by
        rw [List.range_succ_eq_map, List.map_cons, List.map_map]
        simp only [Function.comp_def, Nat.succ_eq_add_one, hsh, Nat.add_zero]
      simp only [Nat.add_sub_cancel] at hrest ⊢
      cases ho : outcomes a with
      | response st2 b2 => rw [ho] at hfa; simp [isFailureOutcome] at hfa
      | timeout =>
        rw [get_page_loop_timeout_step outcomes jitter a (f2 + 1) ho (Nat.succ_ne_zero f2),
          hrest, hrange]
        simp [waitSecs, ho]
      | reqError =>
        rw [get_page_loop_reqError_step outcomes jitter a (f2 + 1) ho (Nat.succ_ne_zero f2),
          hrest, hrange]
        simp [waitSecs, ho]

end GCCMPD

namespace GCCMPD

/-- C5: the fetcher's retry schedule.  If the first success is at attempt
`k < maxRetries` (all earlier attempts failing), `get_page` returns that
attempt's body after the politeness delay, and the recorded waits are
exactly one backoff per failed attempt `i`: `(i+1)*5` seconds for a read
timeout and `(i+1)*2` seconds for any other request failure.  If all
`maxRetries` attempts fail, it returns None (never raises) after the
backoffs of the first `maxRetries - 1` attempts. -/
theorem fetcher_retry_schedule (outcomes : Nat → AttemptOutcome)
    (jitter : Nat → ℚ) (m : Nat) :
    (∀ k st b, k < m →
      (∀ i, i < k → isFailureOutcome (outcomes i) = true) →
      outcomes k = .response st b →
      get_page outcomes jitter m =
        (some b, ((List.range k).map fun i =>
            FetchEvent.backoffWait (waitSecs (outcomes i) i)) ++
          [.politeness (jitter k)])) ∧
    ((∀ i, i < m → isFailureOutcome (outcomes i) = true) →
      get_page outcomes jitter m =
        (none, (List.range (m - 1)).map fun i =>
          FetchEvent.backoffWait (waitSecs (outcomes i) i))) := by
  constructor
  · intro k st b hk hfail hsucc
    have h := get_page_loop_success outcomes jitter st b k 0 m hk
      (fun i hi => by simpa using hfail i hi) (by simpa using hsucc)
    simpa [get_page] using h
  · intro hfail
    have h := get_page_loop_exhausted outcomes jitter m 0
      (fun i hi => by simpa using hfail i hi)
    simpa [get_page] using h

/-- Witness for C5: the claim's example scenario — two read timeouts then
a success on the third attempt with maxRetries = 3 yields the third body
after backoff waits of 5 s and 10 s. -/
theorem fetcher_retry_schedule_witness :
    get_page (fun i => if i < 2 then .timeout else .response 200 "third body")
        (fun _ => 2) 3 =
      (some "third body",
        [.backoffWait 5, .backoffWait 10, .politeness 2]) := by
  have h := (fetcher_retry_schedule
      (fun i => if i < 2 then .timeout else .response 200 "third body")
      (fun _ => 2) 3).1 2 200 "third body" (by decide)
    (fun i hi => by
      have h2 : i < 2 := hi
      simp [h2, isFailureOutcome])
    (by simp)
  exact h.trans (by decide)

/-- The attempt outcome with its status code erased: `get_page` never
inspects the status code of a received response. -/
def statusErased : AttemptOutcome → AttemptOutcome
  | .response _ body => .response 0 body
  | o => o

theorem get_page_loop_status_blind (outcomes outcomes2 : Nat → AttemptOutcome)
    (jitter : Nat → ℚ)
    (hrel : ∀ i, statusErased (outcomes i) = statusErased (outcomes2 i)) :
    ∀ (fuel a : Nat),
      get_page_loop outcomes jitter a fuel = get_page_loop outcomes2 jitter a fuel := by
  intro fuel
  induction fuel with
  | zero => intro a; rfl
  | succ f ih =>
    intro a
    have h := hrel a
    cases ho : outcomes a <;> cases ho2 : outcomes2 a <;>
        rw [ho, ho2] at h <;> simp [statusErased] at h
    · conv_lhs => rw [get_page_loop]
      conv_rhs => rw [get_page_loop]
      rw [ho, ho2, ih (a + 1)]
    · conv_lhs => rw [get_page_loop]
      conv_rhs => rw [get_page_loop]
      rw [ho, ho2, ih (a + 1)]
    · rw [get_page_loop_response_step outcomes jitter a f _ _ ho,
        get_page_loop_response_step outcomes2 jitter a f _ _ ho2, h]

/-- C10: the status code of a received HTTP response never affects
`get_page`: erasing all status codes from the outcome oracle leaves the
result unchanged, and a response on the first attempt — whatever its
status, e.g. a 404 or 500 — is returned as a success body after the
politeness delay, with no retry and no Failure. -/
theorem fetcher_ignores_status (outcomes outcomes2 : Nat → AttemptOutcome)
    (jitter : Nat → ℚ) (m : Nat) :
    ((∀ i, statusErased (outcomes i) = statusErased (outcomes2 i)) →
      get_page outcomes jitter m = get_page outcomes2 jitter m) ∧
    (∀ st b, outcomes 0 = .response st b → 0 < m →
      get_page outcomes jitter m = (some b, [.politeness (jitter 0)])) := by
  constructor
  · intro hrel
    exact get_page_loop_status_blind outcomes outcomes2 jitter hrel m 0
  · intro st b h0 hm
    cases m with
    | zero => omega
    | succ f => exact get_page_loop_response_step outcomes jitter 0 f st b h0

/-- Witness for C10 at a concrete 404 response: the body is returned as a
success and the result agrees with the same oracle carrying status 200. -/
theorem fetcher_ignores_status_witness :
    get_page (fun _ => .response 404 "error page body") (fun _ => 1) 3 =
        get_page (fun _ => .response 200 "error page body") (fun _ => 1) 3 ∧
    get_page (fun _ => .response 404 "error page body") (fun _ => 1) 3 =
      (some "error page body", [.politeness 1]) := by
  constructor
  · exact (fetcher_ignores_status (fun _ => .response 404 "error page body")
      (fun _ => .response 200 "error page body") (fun _ => 1) 3).1 (fun i => rfl)
  · exact (fetcher_ignores_status (fun _ => .response 404 "error page body")
      (fun _ => .response 200 "error page body") (fun _ => 1) 3).2 404
      "error page body" rfl (by decide)

end GCCMPD

namespace GCCMPD

/-! ## Pagination estimator (APEP_crawl.py lines 72-110 `get_total_pages`)

The root page, as seen by the estimator, is the list of results of the
four pagination XPath selectors, tried in order; a fetch failure or an
exception inside the try block are the other two cases. -/

inductive RootFetch where
  | fetchFailed
  | parseError
  | parsed (selectorResults : List (List String))
  deriving Repr

/-- Convert a list of ASCII digits to the number they denote. -/
def digitsToNat (cs : List Char) : Nat :=
  cs.foldl (fun n c => n * 10 + (c.toNat - 48)) 0

/-- Whether the character list starts with the literal "page=". -/
def startsWithPageEq : List Char → Bool
  | 'p' :: 'a' :: 'g' :: 'e' :: '=' :: _ => true
  | _ => false

/-- Model of `re.search(r'page=(\d+)', url)`: the digits after the
leftmost occurrence of "page=" that is followed by at least one digit,
or none. -/
def findPageNum : List Char → Option Nat
  | [] => none
  | c :: rest =>
    if startsWithPageEq (c :: rest) then
      let ds := ((c :: rest).drop 5).takeWhile Char.isDigit
      if ds.isEmpty then findPageNum rest else some (digitsToNat ds)
    else findPageNum rest

def findPageParam (s : String) : Option Nat :=
  findPageNum s.toList

/-- One selector's contribution: the page number parsed from the first
link it returned, if any (`last_page_links[0]` and the regex match). -/
def heurParse (links : List String) : Option Nat :=
  match links with
  | [] => none
  | l :: _ => findPageParam l

/-- APEP_crawl.py lines 92-103: the selector loop.  A selector with a
non-empty result whose first link has no parseable "page=" number does
NOT stop the loop; the next selector is tried. -/
def firstParseable : List (List String) → Option Nat
  | [] => none
  | links :: rest =>
    match heurParse links with
    | some n => some n
    | none => firstParseable rest

/-- APEP_crawl.py lines 72-110: `get_total_pages()`.  A found 0-indexed
last-page number n yields n + 1 total pages; a fetch failure, a thrown
exception, or no parseable selector yields the hardcoded default 218. -/
def get_total_pages : RootFetch → Nat
  | .fetchFailed => 218
  | .parseError => 218
  | .parsed rs =>
    match firstParseable rs with
    | some n => n + 1
    | none => 218

theorem firstParseable_of_first_success (rs : List (List String)) :
    ∀ (i n : Nat) (hi : i < rs.length),
      (∀ j (hj : j < i), heurParse (rs.get ⟨j, by omega⟩) = none) →
      heurParse (rs.get ⟨i, hi⟩) = some n →
      firstParseable rs = some n := by
  induction rs with
  | nil => intro i n hi; exact absurd hi (by simp)
  | cons links rest ih =>
    intro i n hi hbefore hsucc
    cases i with
    | zero =>
      simp only [List.get] at hsucc
      simp [firstParseable, hsucc]
    | succ i2 =>
      have h0 : heurParse links = none := by
        have := hbefore 0 (by omega)
        simpa [List.get] using this
      simp only [firstParseable, h0]
      exact ih i2 n (by simpa using hi)
        (fun j hj => by
          have := hbefore (j + 1) (by omega)
          simpa [List.get] using this)
        (by simpa [List.get] using hsucc)

theorem firstParseable_of_all_fail (rs : List (List String)) :
    (∀ j (hj : j < rs.length), heurParse (rs.get ⟨j, hj⟩) = none) →
    firstParseable rs = none := by
  induction rs with
  | nil => intro _; rfl
  | cons links rest ih =>
    intro hall
    have h0 : heurParse links = none := by
      have := hall 0 (by simp)
      simpa [List.get] using this
    simp only [firstParseable, h0]
    exact ih fun j hj => by
      have := hall (j + 1) (by simpa using hj)
      simpa [List.get] using this

/-- C6: the pagination estimate is lastPageIndex + 1 taken from the first
selector in the prioritized chain whose first link carries a parseable
"page=" number, and every failure mode — root page not fetched, parsing
threw, or no selector parseable — yields the hardcoded default 218. -/
theorem pagination_estimator_spec :
    (∀ (rs : List (List String)) (i n : Nat) (hi : i < rs.length),
      (∀ j (hj : j < i), heurParse (rs.get ⟨j, by omega⟩) = none) →
      heurParse (rs.get ⟨i, hi⟩) = some n →
      get_total_pages (.parsed rs) = n + 1) ∧
    get_total_pages .fetchFailed = 218 ∧
    get_total_pages .parseError = 218 ∧
    (∀ rs : List (List String),
      (∀ j (hj : j < rs.length), heurParse (rs.get ⟨j, hj⟩) = none) →
      get_total_pages (.parsed rs) = 218) := by
  refine ⟨?_, rfl, rfl, ?_⟩
  · intro rs i n hi hbefore hsucc
    have h := firstParseable_of_first_success rs i n hi hbefore hsucc
    simp [get_total_pages, h]
  · intro rs hall
    have h := firstParseable_of_all_fail rs hall
    simp [get_total_pages, h]

/-- Witness for C6: the third selector is the first parseable one
("?page=217" in the claim's 0-indexed example gives 218 total pages), and
an unfetchable root also gives 218. -/
theorem pagination_estimator_spec_witness :
    get_total_pages (.parsed [[], ["/node?q=1"], ["/node?page=217"]]) = 218 ∧
    get_total_pages .fetchFailed = 218 := by
  constructor
  · have h := pagination_estimator_spec.1 [[], ["/node?q=1"], ["/node?page=217"]]
      2 217 (by decide)
      (fun j hj => by
        interval_cases j
        · rfl
        · rfl)
      (by decide)
    simpa using h
  · exact pagination_estimator_spec.2.1

end GCCMPD

namespace GCCMPD

/-! ## Run orchestrator pagination loop (APEP_crawl.py lines 139-295)

One listing page's outcome, as seen by the loop body: the fetch returned
None, parsing threw, or the listing extractor found n item links. -/

inductive PageOutcome where
  | fetchFail
  | parseFail
  | items (n : Nat)
  deriving DecidableEq, Repr

/-- APEP_crawl.py line 142: stop after this many consecutive empty pages. -/
def max_empty_pages : Nat := 3

/-- The `while current_page < total_pages` loop of APEP_crawl.py lines
144-295, projected onto its termination-relevant state.  Arguments after
the oracle and the bound: remaining fuel (at entry `fuel = total_pages`,
an upper bound on remaining iterations since `cp` increases each step),
`cp` = current_page, `ce` = consecutive_empty_pages, `iters` = number of
loop-body executions so far.  Returns (iterations executed, final
current_page).  A fetch failure or parse exception advances the page and
leaves the empty-counter untouched; an empty item list increments the
counter, breaking out (without advancing the page) when it reaches
`max_empty_pages`; a non-empty page resets the counter to zero and
advances. -/
def crawlLoop (outcome : Nat → PageOutcome) (total_pages : Nat) :
    Nat → Nat → Nat → Nat → Nat × Nat
  | 0, cp, _, iters => (iters, cp)
  | fuel + 1, cp, ce, iters =>
    if cp < total_pages then
      match outcome cp with
      | .fetchFail => crawlLoop outcome total_pages fuel (cp + 1) ce (iters + 1)
      | .parseFail => crawlLoop outcome total_pages fuel (cp + 1) ce (iters + 1)
      | .items 0 =>
        if ce + 1 ≥ max_empty_pages then (iters + 1, cp)
        else crawlLoop outcome total_pages fuel (cp + 1) (ce + 1) (iters + 1)
      | .items (_ + 1) => crawlLoop outcome total_pages fuel (cp + 1) 0 (iters + 1)
    else (iters, cp)

/-- The full run starting at page 0 with zeroed counters; fuel
`total_pages` suffices because `current_page` grows by one per recursive
call. -/
def crawlRun (outcome : Nat → PageOutcome) (total_pages : Nat) : Nat × Nat :=
  crawlLoop outcome total_pages total_pages 0 0 0

theorem crawlLoop_skip_step (outcome : Nat → PageOutcome) (tp fuel cp ce iters : Nat)
    (hcp : cp < tp) (ho : outcome cp = .fetchFail ∨ outcome cp = .parseFail) :
    crawlLoop outcome tp (fuel + 1) cp ce iters =
      crawlLoop outcome tp fuel (cp + 1) ce (iters + 1) := by
  conv_lhs => rw [crawlLoop]
  rcases ho with ho | ho <;> rw [if_pos hcp, ho]

theorem crawlLoop_nonempty_step (outcome : Nat → PageOutcome) (tp fuel cp ce iters n : Nat)
    (hcp : cp < tp) (ho : outcome cp = .items (n + 1)) :
    crawlLoop outcome tp (fuel + 1) cp ce iters =
      crawlLoop outcome tp fuel (cp + 1) 0 (iters + 1) := by
  conv_lhs => rw [crawlLoop]
  rw [if_pos hcp, ho]

theorem crawlLoop_empty_below_step (outcome : Nat → PageOutcome) (tp fuel cp ce iters : Nat)
    (hcp : cp < tp) (ho : outcome cp = .items 0) (hce : ce + 1 < max_empty_pages) :
    crawlLoop outcome tp (fuel + 1) cp ce iters =
      crawlLoop outcome tp fuel (cp + 1) (ce + 1) (iters + 1) := by
  conv_lhs => rw [crawlLoop]
  rw [if_pos hcp, ho, if_neg (by omega)]

theorem crawlLoop_empty_break_step (outcome : Nat → PageOutcome) (tp fuel cp ce iters : Nat)
    (hcp : cp < tp) (ho : outcome cp = .items 0) (hce : max_empty_pages ≤ ce + 1) :
    crawlLoop outcome tp (fuel + 1) cp ce iters = (iters + 1, cp) := by
  conv_lhs => rw [crawlLoop]
  rw [if_pos hcp, ho, if_pos hce]

/-- C7: (1) if every fetched listing page yields zero items, the loop
executes exactly max_empty_pages = 3 iterations and stops at
current_page = 2, strictly before the page-count estimate; (2) a page
with a non-zero item count resets the consecutive-empty counter to zero
while advancing the page by one; (3) a fetch failure, a parse failure,
or an empty page below the threshold also advance the page by exactly
one (the empty page incrementing the counter). -/
theorem orchestrator_empty_page_termination
    (outcome : Nat → PageOutcome) (tp : Nat) :
    ((∀ p, outcome p = .items 0) → 3 ≤ tp →
      crawlRun outcome tp = (3, 2) ∧ 2 < tp) ∧
    (∀ fuel cp ce iters n, cp < tp → outcome cp = .items (n + 1) →
      crawlLoop outcome tp (fuel + 1) cp ce iters =
        crawlLoop outcome tp fuel (cp + 1) 0 (iters + 1)) ∧
    (∀ fuel cp ce iters, cp < tp →
      (outcome cp = .fetchFail ∨ outcome cp = .parseFail →
        crawlLoop outcome tp (fuel + 1) cp ce iters =
          crawlLoop outcome tp fuel (cp + 1) ce (iters + 1)) ∧
      (outcome cp = .items 0 → ce + 1 < max_empty_pages →
        crawlLoop outcome tp (fuel + 1) cp ce iters =
          crawlLoop outcome tp fuel (cp + 1) (ce + 1) (iters + 1))) := by
  refine ⟨?_, ?_, ?_⟩
  · intro hempty htp
    obtain ⟨f, hf⟩ : ∃ f, tp = f + 3 := ⟨tp - 3, by omega⟩
    subst hf
    refine ⟨?_, by omega⟩
    show crawlLoop outcome (f + 3) (f + 3) 0 0 0 = (3, 2)
    have e0 : f + 3 = (f + 2) + 1 := by omega
    have e1 : f + 2 = (f + 1) + 1 := by omega
    calc crawlLoop outcome (f + 3) (f + 3) 0 0 0
        = crawlLoop outcome (f + 3) (f + 2) 1 1 1 := by
          rw [e0]
          exact crawlLoop_empty_below_step outcome (f + 3) (f + 2) 0 0 0
            (by omega) (hempty 0) (by decide)
      _ = crawlLoop outcome (f + 3) (f + 1) 2 2 2 := by
          rw [e1]
          exact crawlLoop_empty_below_step outcome (f + 3) (f + 1) 1 1 1
            (by omega) (hempty 1) (by decide)
      _ = (3, 2) :=
          crawlLoop_empty_break_step outcome (f + 3) f 2 2 2
            (by omega) (hempty 2) (by decide)
  · intro fuel cp ce iters n hcp ho
    exact crawlLoop_nonempty_step outcome tp fuel cp ce iters n hcp ho
  · intro fuel cp ce iters hcp
    exact ⟨fun ho => crawlLoop_skip_step outcome tp fuel cp ce iters hcp ho,
      fun ho hce => crawlLoop_empty_below_step outcome tp fuel cp ce iters hcp ho hce⟩

/-- Witness for C7: with a 10-page estimate and an all-empty source the
run stops after 3 iterations at page 2; a non-empty page at index 0
resets the counter; a fetch failure and a first empty page advance the
page preserving and incrementing the counter respectively. -/
theorem orchestrator_empty_page_termination_witness :
    crawlRun (fun _ => .items 0) 10 = (3, 2) ∧
    crawlLoop (fun _ => .items 5) 10 4 0 2 0 = crawlLoop (fun _ => .items 5) 10 3 1 0 1 ∧
    crawlLoop (fun _ => .fetchFail) 10 4 0 1 0 = crawlLoop (fun _ => .fetchFail) 10 3 1 1 1 ∧
    crawlLoop (fun _ => .items 0) 10 4 0 0 0 = crawlLoop (fun _ => .items 0) 10 3 1 1 1 := by
  refine ⟨?_, ?_, ?_, ?_⟩
  · exact ((orchestrator_empty_page_termination (fun _ => .items 0) 10).1
      (fun p => rfl) (by omega)).1
  · exact (orchestrator_empty_page_termination (fun _ => .items 5) 10).2.1
      3 0 2 0 4 (by omega) rfl
  · exact ((orchestrator_empty_page_termination (fun _ => .fetchFail) 10).2.2
      3 0 1 0 (by omega)).1 (Or.inl rfl)
  · exact ((orchestrator_empty_page_termination (fun _ => .items 0) 10).2.2
      3 0 0 0 (by omega)).2 rfl (by decide)

end GCCMPD

namespace GCCMPD

/-! ## Incremental writer (APEP_crawl.py lines 120-126 header creation,
lines 264-268 row append)

The store is `none` (file absent) or the list of CSV rows.  A process
restart re-runs the module-level header check; an accepted record runs
one open-append-close cycle. -/

/-- The fixed header row of APEP.csv (APEP_crawl.py lines 124-126). -/
def apepHeader : List String :=
  ["Policy", "Year", "Country", "Policy_Content", "single_url_2", "Scope",
   "Document_Type", "Economic_Sector", "Energy_Types", "Source"]

/-- APEP_crawl.py lines 121-126: on process start, if the file does not
exist, create it with the single header row; otherwise leave it as is. -/
def initStore : Option (List (List String)) → List (List String)
  | none => [apepHeader]
  | some rows => rows

/-- APEP_crawl.py lines 264-268: one append call — open in mode 'a'
(creating an empty file if absent, the OS semantics of append mode),
write exactly one row at the end, close. -/
def appendRow (file : Option (List (List String))) (r : List String) :
    List (List String) :=
  match file with
  | none => [r]
  | some rows => rows ++ [r]

/-- One event in the life of the store: a process (re)start running the
header check, or one accepted-record write. -/
inductive WriterOp where
  | restart
  | write (r : List String)
  deriving DecidableEq, Repr

/-- Execute a sequence of writer events against the store. -/
def runWriter : Option (List (List String)) → List WriterOp →
    Option (List (List String))
  | file, [] => file
  | file, .restart :: ops => runWriter (some (initStore file)) ops
  | file, .write r :: ops => runWriter (some (appendRow file r)) ops

/-- The data rows written by a sequence of events, in call order. -/
def writesOf : List WriterOp → List (List String)
  | [] => []
  | .restart :: ops => writesOf ops
  | .write r :: ops => r :: writesOf ops

theorem runWriter_some (ops : List WriterOp) :
    ∀ rows : List (List String),
      runWriter (some rows) ops = some (rows ++ writesOf ops) := by
  induction ops with
  | nil => intro rows; simp [runWriter, writesOf]
  | cons op rest ih =>
    intro rows
    cases op with
    | restart => simp [runWriter, writesOf, initStore, ih]
    | write r => simp [runWriter, writesOf, appendRow, ih]

/-- C8: starting from a non-existent store, any event sequence beginning
with a process start (the module-level header check always runs before
the first append of a run) leaves the store containing exactly one
header row followed by the written data rows in call order — restarts
in between neither duplicate the header nor truncate earlier rows. -/
theorem incremental_writer_header_idempotent (ops : List WriterOp) :
    runWriter none (.restart :: ops) = some (apepHeader :: writesOf ops) := by
  simp only [runWriter, initStore]
  rw [runWriter_some ops [apepHeader]]
  simp

/-- Witness for C8: two writes separated by a restart yield one header
and the two rows in order. -/
theorem incremental_writer_header_idempotent_witness :
    runWriter none
        [.restart, .write ["P1", "2021"], .restart, .write ["P2", "2022"]] =
      some [apepHeader, ["P1", "2021"], ["P2", "2022"]] := by
  exact (incremental_writer_header_idempotent
    [.write ["P1", "2021"], .restart, .write ["P2", "2022"]]).trans (by decide)

end GCCMPD

namespace GCCMPD

/-! ## Field extractor (APEP_crawl.py lines 194-258; the same
label-matching-with-empty-fallback pattern appears in
ECOLEX_Legislation_crawl.py `parse_detail` lines 63-198)

A detail page, as the extractor sees it: the optional first text node of
the page-header selector, and the list of panel blocks, each with the
optional first text node of its label cell and of its value cell
(`none` models the IndexError path of the `[0]` subscript, caught by the
enclosing try/except and degraded to the empty string).  The embedding
is total by construction, matching the source's property of never
raising for any input body. -/

structure PanelBlock where
  headText : Option String
  value : Option String
  deriving DecidableEq, Repr

structure DetailPage where
  pageHeader : Option String
  blocks : List PanelBlock
  deriving DecidableEq, Repr

/-- Python `s.replace("\n", ' ').strip()`, the normalization applied to
every extracted text node. -/
def pyNorm (s : String) : String :=
  pyStrip (String.mk (s.toList.map fun c => if c = '\n' then ' ' else c))

/-- Whether the second list starts with the first one. -/
def leadsWith : List Char → List Char → Bool
  | [], _ => true
  | _ :: _, [] => false
  | a :: as, b :: bs => a == b && leadsWith as bs

/-- Model of Python substring containment (the `in` operator on str). -/
def hasSubList (needle : List Char) : List Char → Bool
  | [] => needle.isEmpty
  | c :: t => leadsWith needle (c :: t) || hasSubList needle t

def hasSub (needle hay : String) : Bool :=
  hasSubList needle.toList hay.toList

/-- The text before the first colon (Python `s.split(':')[0]`). -/
def beforeColon : List Char → List Char
  | [] => []
  | ':' :: _ => []
  | c :: rest => c :: beforeColon rest

/-- The text after the first colon (Python `s.split(':', 1)[-1]` when a
colon is present). -/
def afterColon : List Char → List Char
  | [] => []
  | ':' :: rest => rest
  | _ :: rest => afterColon rest

/-- APEP_crawl.py lines 195-205: the page-header parse producing
(Policy, Country).  A missing header text node (the except branch)
yields two empty strings; a header with a colon splits into
Country before it and Policy after it. -/
def extractTitle (p : DetailPage) : String × String :=
  match p.pageHeader with
  | none => ("", "")
  | some t =>
    if t.toList.contains ':' then
      (pyNorm (String.mk (afterColon t.toList)),
        pyNorm (String.mk (beforeColon t.toList)))
    else (pyNorm t, "")

structure ApepFields where
  Year : String
  Scope : String
  Document_Type : String
  Economic_Sector : String
  Energy_Types : String
  Policy_Content : String
  deriving DecidableEq, Repr

/-- APEP_crawl.py lines 214-219: all fields initialized to the empty
string. -/
def emptyFields : ApepFields := ⟨"", "", "", "", "", ""⟩

/-- The value cell's normalized first text node, or the empty string when
the subscript raised (the inner except branches of lines 228-256). -/
def valueOrEmpty (b : PanelBlock) : String :=
  match b.value with
  | none => ""
  | some v => pyNorm v

/-- APEP_crawl.py lines 222-258: one panel block of the label loop.  A
block whose label cell subscript raises is skipped (`except: continue`);
otherwise the label is matched by substring containment against the
fixed vocabulary, in the source's elif order, and the matching field is
assigned the (possibly empty) value. -/
def stepField (f : ApepFields) (b : PanelBlock) : ApepFields :=
  match b.headText with
  | none => f
  | some h0 =>
    let ht := pyNorm h0
    if hasSub "Effective Start Year:" ht then { f with Year := valueOrEmpty b }
    else if hasSub "Scope:" ht then { f with Scope := valueOrEmpty b }
    else if hasSub "Document Type:" ht then { f with Document_Type := valueOrEmpty b }
    else if hasSub "Economic Sector:" ht then { f with Economic_Sector := valueOrEmpty b }
    else if hasSub "Energy Types:" ht then { f with Energy_Types := valueOrEmpty b }
    else if hasSub "Overall Summary:" ht then { f with Policy_Content := valueOrEmpty b }
    else f

def extractOtherFields (p : DetailPage) : ApepFields :=
  p.blocks.foldl stepField emptyFields

structure ApepRecord where
  Policy : String
  Country : String
  fields : ApepFields
  deriving DecidableEq, Repr

/-- APEP_crawl.py lines 207-209 and 260-282: a record whose resolved
Policy title is empty is discarded (`continue`) before the year filter
and before any write; otherwise the full record proceeds. -/
def processItem (p : DetailPage) : Option ApepRecord :=
  let pc := extractTitle p
  if pc.1 = "" then none
  else some ⟨pc.1, pc.2, extractOtherFields p⟩

theorem foldl_stepField_skip (blocks : List PanelBlock) :
    ∀ acc : ApepFields, (∀ b ∈ blocks, b.headText = none) →
      blocks.foldl stepField acc = acc := by
  induction blocks with
  | nil => intro acc _; rfl
  | cons b rest ih =>
    intro acc hall
    have hb : b.headText = none := hall b (List.mem_cons_self _ _)
    rw [List.foldl_cons]
    rw [show stepField acc b = acc from by rw [stepField, hb]]
    exact ih acc fun x hx => hall x (List.mem_cons_of_mem _ hx)

/-- C9: field extraction degrades gracefully and discards empty titles.
(1) A body where every block's label cell is missing leaves every field
equal to the empty string; (2) a body with no resolvable page header
yields an empty Policy and Country and the record is discarded; (3) any
record whose resolved title is empty is discarded before any write;
(4) a block whose label matches but whose value cell is missing sets the
matched field to the empty string rather than aborting (shown for the
Scope field).  Totality — extraction never raises — holds by
construction of the embedding. -/
theorem field_extractor_graceful :
    (∀ p : DetailPage, (∀ b ∈ p.blocks, b.headText = none) →
      extractOtherFields p = emptyFields) ∧
    (∀ p : DetailPage, p.pageHeader = none →
      extractTitle p = ("", "") ∧ processItem p = none) ∧
    (∀ p : DetailPage, (extractTitle p).1 = "" → processItem p = none) ∧
    (∀ (f : ApepFields) (b : PanelBlock) (h : String), b.headText = some h →
      hasSub "Effective Start Year:" (pyNorm h) = false →
      hasSub "Scope:" (pyNorm h) = true →
      b.value = none → (stepField f b).Scope = "") := by
  refine ⟨?_, ?_, ?_, ?_⟩
  · intro p hall
    exact foldl_stepField_skip p.blocks emptyFields hall
  · intro p hp
    have ht : extractTitle p = ("", "") := by rw [extractTitle, hp]
    exact ⟨ht, by rw [processItem, ht]; rfl⟩
  · intro p hp
    rw [processItem, if_pos hp]
  · intro f b h hb hy hs hv
    rw [stepField, hb]
    simp only [hy, hs, Bool.false_eq_true, if_false, if_true]
    rw [valueOrEmpty, hv]

/-- Witness for C9 at concrete pages: a selector-free page yields empty
fields and is discarded; a Scope-labelled block with a missing value
cell yields an empty Scope field. -/
theorem field_extractor_graceful_witness :
    extractOtherFields ⟨none, [⟨none, none⟩, ⟨none, some "v"⟩]⟩ = emptyFields ∧
    processItem ⟨none, [⟨none, none⟩]⟩ = none ∧
    (stepField emptyFields ⟨some "Scope:", none⟩).Scope = "" := by
  refine ⟨?_, ?_, ?_⟩
  · exact field_extractor_graceful.1 ⟨none, [⟨none, none⟩, ⟨none, some "v"⟩]⟩
      (by decide)
  · exact (field_extractor_graceful.2.1 ⟨none, [⟨none, none⟩]⟩ rfl).2
  · exact field_extractor_graceful.2.2.2 emptyFields ⟨some "Scope:", none⟩
      "Scope:" rfl (by decide) (by decide) rfl

end GCCMPD
